import Mathlib

/-!
# ESI Progress Tracker — Submission Lifecycle Manager, shallow embedding

A shallow embedding of the submission lifecycle logic of
`backend/src/server.ts` (Express + SQLite app):

* the `Submission` data model and its helper records;
* `filterSubmissionsByProfessor` (professor-id fuzzy reconciliation);
* the HTTP handlers `POST /api/submissions` (create),
  `PATCH /api/submissions/:id` (student/professor update),
  `POST /api/submissions/:id/comment` (student comment),
  `POST /api/submissions/:id/feedback` (professor feedback),
  `GET /api/submissions` (listing), and
  `GET /api/submissions/:id/versions[/:version]` (version reads).

JavaScript conventions are modelled explicitly: optional / possibly-absent
JSON body fields become `Option`; JS truthiness on strings ("" is falsy)
becomes an emptiness test; `typeof x !== 'undefined'` becomes `Option.isSome`;
a body field that must be an array (or a number) but may arrive as any JSON
value becomes a small inductive recording the `Array.isArray` /
`typeof === 'number'` outcome.  The SQLite store (read row → mutate the
in-memory copy → upsert via `saveSubmission`) is modelled as explicit state
passing over a `Store` record; handlers return the HTTP-level result together
with the post store.  Timestamps (`new Date().toISOString()`) and generated
ids (`Date.now()`-based) are opaque strings supplied as a `now` parameter.
-/

namespace ESITracker

/-- JS `s.toLowerCase()` restricted to the ASCII identifiers this app stores. -/
def strLower (s : String) : String :=
  String.mk (s.data.map Char.toLower)

/-- Is `pre` a prefix of `l`? (helper for JS `String.prototype.includes`). -/
def charsPrefix : List Char → List Char → Bool
  | [], _ => true
  | _ :: _, [] => false
  | a :: as, b :: bs => a == b && charsPrefix as bs

/-- Does `l` contain `sub` as a contiguous run? -/
def charsContain (sub : List Char) : List Char → Bool
  | [] => charsPrefix sub []
  | c :: rest => charsPrefix sub (c :: rest) || charsContain sub rest

/-- JS `s.includes(sub)`: substring containment. -/
def strIncludes (s sub : String) : Bool :=
  charsContain sub.data s.data

/-- One entry of `Submission.versions` (TS type `SubmissionVersion`). -/
structure SubmissionVersion where
  version : Nat
  contentRef : String
  notes : Option String
  createdAt : String
  createdBy : String
  changes : Option String
  deriving Repr, DecidableEq

/-- One entry of `Submission.milestones`: `{label, date, done}`. -/
structure Milestone where
  label : String
  date : String
  done : Bool
  deriving Repr, DecidableEq

/-- One entry of `Submission.feedback`: `{by, text, date}` (`by` is a Lean
keyword, embedded as `author`). -/
structure FeedbackEntry where
  author : String
  text : String
  date : String
  deriving Repr, DecidableEq

/-- The `Submission` entity (TS type `Submission`).  `type` and `status` are
plain strings on the wire (the TS enum annotations are not runtime-checked),
so they are embedded as `String`; the TS field `type` is embedded as `typ`. -/
structure Submission where
  id : String
  studentId : String
  professorId : String
  groupId : Option String
  title : String
  typ : String
  contentRef : String
  notes : Option String
  milestones : List Milestone
  createdAt : String
  updatedAt : String
  status : String
  grade : Option Int
  feedback : List FeedbackEntry
  versions : List SubmissionVersion
  currentVersion : Nat
  deriving Repr, DecidableEq

/-- The fields of the TS `User` record consulted by the lifecycle manager
(`getUserByUserId` existence / `role` / `verified` checks); the remaining
fields (password, email, profile data) are never read by it. -/
structure User where
  userId : String
  role : String
  verified : Bool
  deriving Repr, DecidableEq

/-- The fields of the TS `Group` record consulted by the lifecycle manager
(`id` lookup and `members.includes` membership checks). -/
structure Group where
  id : String
  members : List String
  deriving Repr, DecidableEq

/-- A queued notification (TS type `Notification`); `type` embedded as `typ`. -/
structure Notification where
  id : String
  userId : String
  typ : String
  title : String
  message : String
  relatedId : Option String
  read : Bool
  createdAt : String
  link : Option String
  deriving Repr, DecidableEq

/-- The persistent state the lifecycle manager touches: the `users` and
`submissions` SQLite tables, the `groups.json` file, and the
`notifications.json` file. -/
structure Store where
  users : List User
  groups : List Group
  submissions : List Submission
  notifications : List Notification
  deriving Repr, DecidableEq

/-- The request identity installed by the header middleware:
`auth = { userId, role }`. -/
structure Auth where
  userId : String
  role : String
  deriving Repr, DecidableEq

/-- Header middleware: `req.header('x-user-id') || 'anon'` and
`(req.header('x-role') as ...) || 'student'` — an absent or empty header
falls back to the default. -/
def mkAuth (userIdHeader roleHeader : Option String) : Auth :=
  { userId := match userIdHeader with
      | none => "anon"
      | some s => if s = "" then "anon" else s
    role := match roleHeader with
      | none => "student"
      | some s => if s = "" then "student" else s }

/-- `getUserByUserId`: row lookup by `userId`. -/
def getUserByUserId (users : List User) (userId : String) : Option User :=
  users.find? (fun u => u.userId = userId)

/-- `getSubmissionById`: row lookup by `id` (the row is deserialized into a
fresh in-memory object; later mutations touch the store only through
`saveSubmission`). -/
def getSubmissionById (subs : List Submission) (id : String) : Option Submission :=
  subs.find? (fun s => s.id = id)

/-- `saveSubmission`: SQLite upsert keyed on the primary key `id`. -/
def saveSubmission (subs : List Submission) (sub : Submission) : List Submission :=
  if subs.any (fun s => s.id = sub.id) then
    subs.map (fun s => if s.id = sub.id then sub else s)
  else
    subs ++ [sub]

/-- `createNotification(userId, type, title, message, relatedId?, link?)`.
The source generates `id` from `Date.now()` plus randomness and `createdAt`
from the clock; both are opaque strings here, derived from the `now`
parameter threaded through each handler. -/
def createNotification (userId typ title message : String)
    (relatedId link : Option String) (now : String) : Notification :=
  { id := "notif_" ++ now
    userId := userId
    typ := typ
    title := title
    message := message
    relatedId := relatedId
    read := false
    createdAt := now
    link := link }

/-- `addNotification`: append to `notifications.json`. -/
def addNotification (ns : List Notification) (n : Notification) : List Notification :=
  ns ++ [n]

/-- One step of the `filterSubmissionsByProfessor` loop body: the submission's
match result together with its (possibly professor-rewritten) stored state and
whether `saveSubmission` was invoked for it. -/
def filterStep (professorId : String) (persist : Bool) (s : Submission) :
    Option Submission × Submission × Bool :=
  if s.professorId = "" then
    (none, s, false)
  else if s.professorId = professorId then
    (some s, s, false)
  else
    let submissionProfLower := strLower s.professorId
    let professorIdLower := strLower professorId
    if submissionProfLower = professorIdLower
        || strIncludes submissionProfLower professorIdLower
        || strIncludes professorIdLower submissionProfLower then
      if persist && s.professorId ≠ professorId then
        let s' := { s with professorId := professorId }
        (some s', s', true)
      else
        (some s, s, false)
    else
      (none, s, false)

/-- `filterSubmissionsByProfessor(submissions, professorId, persist)`:
returns the matched submissions, the post-loop submission store (reflecting
the `saveSubmission` calls the loop makes), and the ids saved. -/
def filterSubmissionsByProfessor (subs : List Submission) (professorId : String)
    (persist : Bool) : List Submission × List Submission × List String :=
  match subs with
  | [] => ([], [], [])
  | s :: rest =>
    let (m, s', saved) := filterStep professorId persist s
    let (ms, rest', writes) := filterSubmissionsByProfessor rest professorId persist
    (match m with | some x => x :: ms | none => ms,
     s' :: rest',
     if saved then s'.id :: writes else writes)

/-- JS truthiness of a possibly-absent string field: absent, `undefined`, and
`""` are falsy. -/
def truthy : Option String → Bool
  | none => false
  | some s => s ≠ ""

/-- A JSON body field that the code guards with `Array.isArray`:
absent, a milestone array, or present but not an array. -/
inductive MilestonesField
  | absent
  | arr (ms : List Milestone)
  | notArr
  deriving Repr, DecidableEq

/-- A JSON body field that the code guards with `typeof grade === 'number'`:
absent, a number, or present but not a number.  Grades are embedded as `Int`
(no arithmetic beyond equality is performed on them). -/
inductive GradeField
  | absent
  | num (n : Int)
  | notNum
  deriving Repr, DecidableEq

/-- Result of a handler: the JSON payload or `res.status(code).json({error})`. -/
inductive HResult (α : Type)
  | ok (val : α)
  | err (code : Nat) (msg : String)
  deriving Repr, DecidableEq

/-- The student access check shared by `PATCH /api/submissions/:id` and the
version-read endpoints: group member when `sub.groupId` is truthy, else the
owning student. -/
def studentOwnsOrMember (groups : List Group) (auth : Auth) (sub : Submission) : Bool :=
  if truthy sub.groupId then
    match groups.find? (fun g => some g.id = sub.groupId) with
    | none => false
    | some g => g.members.contains auth.userId
  else
    sub.studentId = auth.userId

/-- Request body of `POST /api/submissions`. -/
structure CreateBody where
  title : Option String
  typ : Option String
  contentRef : Option String
  notes : Option String
  milestones : MilestonesField
  groupId : Option String
  professorId : Option String
  deriving Repr, DecidableEq

/-- `POST /api/submissions` (create submission).  `now` stands for both
`new Date().toISOString()` and the `Date.now()`-derived fresh id. -/
def createSubmission (st : Store) (auth : Auth) (body : CreateBody) (now : String) :
    HResult Submission × Store :=
  if auth.role ≠ "student" then
    (.err 403 "Only students can submit", st)
  else if !(truthy body.title) || !(truthy body.typ) || !(truthy body.contentRef)
      || !(truthy body.professorId) then
    (.err 400 "Missing required fields: title, type, contentRef, and professorId are required", st)
  else
    let professorId := body.professorId.getD ""
    match getUserByUserId st.users professorId with
    | none => (.err 400 "Invalid professor selected", st)
    | some professor =>
      if professor.role ≠ "professor" || !professor.verified then
        (.err 400 "Invalid professor selected", st)
      else
        let groupCheck : Option (HResult Submission) :=
          if truthy body.groupId then
            match st.groups.find? (fun g => some g.id = body.groupId) with
            | none => some (.err 400 "Group not found")
            | some g =>
              if g.members.contains auth.userId then none
              else some (.err 403 "You are not a member of this group")
          else none
        match groupCheck with
        | some e => (e, st)
        | none =>
          let submissionMilestones := match body.milestones with
            | .arr ms => ms
            | _ => []
          let newSubmission : Submission :=
            { id := "sub_" ++ now
              studentId := auth.userId
              professorId := professorId
              groupId := body.groupId
              title := body.title.getD ""
              typ := body.typ.getD ""
              contentRef := body.contentRef.getD ""
              notes := body.notes
              milestones := submissionMilestones
              createdAt := now
              updatedAt := now
              status := "submitted"
              currentVersion := 1
              versions := [{ version := 1
                             contentRef := body.contentRef.getD ""
                             notes := body.notes
                             createdAt := now
                             createdBy := auth.userId
                             changes := some "Initial submission" }]
              grade := none
              feedback := [] }
          let submitterName := if truthy body.groupId then "Group submission" else auth.userId
          let notif := createNotification professorId "new_submission"
            "New Submission Received"
            (submitterName ++ " submitted \"" ++ body.title.getD "" ++ "\"")
            (some newSubmission.id) (some "/professor") now
          (.ok newSubmission,
           { st with submissions := saveSubmission st.submissions newSubmission
                     notifications := addNotification st.notifications notif })

/-- Request body of `PATCH /api/submissions/:id`. -/
structure PatchBody where
  title : Option String
  typ : Option String
  contentRef : Option String
  notes : Option String
  milestones : MilestonesField
  professorId : Option String
  changes : Option String
  deriving Repr, DecidableEq

/-- `contentChanged = contentRef && contentRef !== sub.contentRef`
(JS truthiness: an empty-string patch value does not count). -/
def contentChangedOf (body : PatchBody) (sub : Submission) : Bool :=
  match body.contentRef with
  | some c => c ≠ "" && c ≠ sub.contentRef
  | none => false

/-- `notesChanged = notes !== undefined && notes !== sub.notes`
(an empty-string patch value does count). -/
def notesChangedOf (body : PatchBody) (sub : Submission) : Bool :=
  match body.notes with
  | some n => sub.notes ≠ some n
  | none => false

/-- The version entry pushed by the student `PATCH` branch:
`{version: sub.currentVersion (|| 1) + 1, contentRef: contentRef || sub.contentRef,
notes: notes !== undefined ? notes : sub.notes, createdAt: now,
createdBy: auth.userId, changes: changes || (contentChanged ? 'Content updated' :
'Notes updated')}`. -/
def versionEntryOf (auth : Auth) (body : PatchBody) (now : String)
    (sub : Submission) : SubmissionVersion :=
  { version := (if sub.currentVersion = 0 then 1 else sub.currentVersion) + 1
    contentRef := match body.contentRef with
      | some c => if c = "" then sub.contentRef else c
      | none => sub.contentRef
    notes := match body.notes with
      | some n => some n
      | none => sub.notes
    createdAt := now
    createdBy := auth.userId
    changes := some (match body.changes with
      | some ch =>
        if ch = "" then
          (if contentChangedOf body sub then "Content updated" else "Notes updated")
        else ch
      | none => if contentChangedOf body sub then "Content updated" else "Notes updated") }

/-- Student branch, versioning step (`if (contentChanged || notesChanged) {...}`):
push a version entry built from the patch and overwrite the root
`contentRef`/`notes` (the root `contentRef` only when the patch value is
truthy, per `if (contentRef)`). -/
def applyStudentVersioning (auth : Auth) (body : PatchBody) (now : String)
    (sub : Submission) : Submission :=
  if contentChangedOf body sub || notesChangedOf body sub then
    let entry := versionEntryOf auth body now sub
    let sA := { sub with currentVersion := entry.version, versions := sub.versions ++ [entry] }
    let sB := match body.contentRef with
      | some c => if c = "" then sA else { sA with contentRef := c }
      | none => sA
    match body.notes with
    | some n => { sB with notes := some n }
    | none => sB
  else sub

/-- Student branch, unconditional metadata assignments
(`title` / `type` / `milestones`, the latter `Array.isArray`-guarded). -/
def applyMetaFields (body : PatchBody) (sub : Submission) : Submission :=
  let sub2 := match body.title with
    | some t => { sub with title := t }
    | none => sub
  let sub3 := match body.typ with
    | some t => { sub2 with typ := t }
    | none => sub2
  match body.milestones with
  | .absent => sub3
  | .arr ms => { sub3 with milestones := ms }
  | .notArr => { sub3 with milestones := sub3.milestones }

/-- Professor (non-student) branch assignments: only `notes` and
`milestones`. -/
def applyProfessorFields (body : PatchBody) (sub : Submission) : Submission :=
  let sub1 := match body.notes with
    | some n => { sub with notes := some n }
    | none => sub
  match body.milestones with
  | .absent => sub1
  | .arr ms => { sub1 with milestones := ms }
  | .notArr => { sub1 with milestones := sub1.milestones }

/-- `PATCH /api/submissions/:id`.  The source mutates the in-memory row copy
and persists it with one `saveSubmission` at the end; the `400` return for an
invalid `professorId` fires before that save, discarding the copy.  Note that
the professor (non-student) branch performs no check that the caller is the
submission's assigned professor. -/
def patchSubmission (st : Store) (auth : Auth) (id : String) (body : PatchBody)
    (now : String) : HResult Submission × Store :=
  match getSubmissionById st.submissions id with
  | none => (.err 404 "Not found", st)
  | some sub =>
    if auth.role = "student" && !(studentOwnsOrMember st.groups auth sub) then
      (.err 403 "Forbidden", st)
    else if auth.role = "student" then
      let sub4 := applyMetaFields body (applyStudentVersioning auth body now sub)
      match body.professorId with
      | some pid =>
        (match getUserByUserId st.users pid with
         | none => (.err 400 "Invalid professor selected", st)
         | some professor =>
           if professor.role ≠ "professor" || !professor.verified then
             (.err 400 "Invalid professor selected", st)
           else
             let sub5 := { sub4 with professorId := pid, updatedAt := now }
             (.ok sub5, { st with submissions := saveSubmission st.submissions sub5 }))
      | none =>
        let sub5 := { sub4 with updatedAt := now }
        (.ok sub5, { st with submissions := saveSubmission st.submissions sub5 })
    else
      let sub3 := { applyProfessorFields body sub with updatedAt := now }
      (.ok sub3, { st with submissions := saveSubmission st.submissions sub3 })

/-- `POST /api/submissions/:id/comment` (student comment). -/
def commentSubmission (st : Store) (auth : Auth) (id : String) (text : Option String)
    (now : String) : HResult Submission × Store :=
  if auth.role ≠ "student" then
    (.err 403 "Only students can add comments", st)
  else if !(truthy text) || (text.getD "").trim = "" then
    (.err 400 "Comment text is required", st)
  else
    match getSubmissionById st.submissions id with
    | none => (.err 404 "Not found", st)
    | some sub =>
      if sub.studentId ≠ auth.userId then
        (.err 403 "You can only comment on your own submissions", st)
      else
        let sub' := { sub with
          feedback := sub.feedback ++
            [{ author := auth.userId, text := (text.getD "").trim, date := now }]
          updatedAt := now }
        (.ok sub', { st with submissions := saveSubmission st.submissions sub' })

/-- Request body of `POST /api/submissions/:id/feedback`. -/
structure FeedbackBody where
  text : Option String
  status : Option String
  grade : GradeField
  deriving Repr, DecidableEq

/-- The `statusMessages` record of the feedback handler, with its
`|| 'Status changed to ...'` fallback. -/
def statusMessage (status : String) : String :=
  if status = "approved" then "Your submission has been approved!"
  else if status = "resubmit" then "Your submission needs to be resubmitted"
  else if status = "submitted" then "Your submission status has been updated"
  else "Status changed to " ++ status

/-- The submission mutation of the feedback handler: push the comment when
`text` is truthy, apply `status` when it passes the whitelist, apply `grade`
when numeric, refresh `updatedAt`. -/
def feedbackResult (auth : Auth) (body : FeedbackBody) (now : String)
    (sub : Submission) : Submission :=
  let sub1 :=
    if truthy body.text then
      { sub with feedback := sub.feedback ++
          [{ author := auth.userId, text := body.text.getD "", date := now }] }
    else sub
  let sub2 :=
    match body.status with
    | some stt =>
      if stt ≠ "" && ["submitted", "approved", "resubmit"].contains stt then
        { sub1 with status := stt }
      else sub1
    | none => sub1
  let sub3 :=
    match body.grade with
    | .num n => { sub2 with grade := some n }
    | _ => sub2
  { sub3 with updatedAt := now }

/-- The notifications the feedback handler pushes (in source order: feedback,
status_change, grade), each conditional on the original `oldStatus` /
`oldGrade` captured before the mutation. -/
def feedbackNotifs (auth : Auth) (body : FeedbackBody) (now : String)
    (sub : Submission) : List Notification :=
  (if truthy body.text then
    [createNotification sub.studentId "feedback" "New Feedback Received"
      (auth.userId ++ " commented on \"" ++ sub.title ++ "\"")
      (some sub.id) (some "/student") now]
  else []) ++
  (match body.status with
   | some stt =>
     if stt ≠ "" && stt ≠ sub.status then
       [createNotification sub.studentId "status_change" "Submission Status Updated"
         (statusMessage stt) (some sub.id) (some "/student") now]
     else []
   | none => []) ++
  (match body.grade with
   | .num n =>
     if sub.grade ≠ some n then
       [createNotification sub.studentId "grade" "Grade Assigned"
         ("You received a grade of " ++ toString n ++ "/100 for \"" ++ sub.title ++ "\"")
         (some sub.id) (some "/student") now]
     else []
   | _ => [])

/-- `POST /api/submissions/:id/feedback` (professor feedback / status / grade). -/
def feedbackSubmission (st : Store) (auth : Auth) (id : String) (body : FeedbackBody)
    (now : String) : HResult Submission × Store :=
  if auth.role ≠ "professor" then
    (.err 403 "Only professors can comment", st)
  else
    match getSubmissionById st.submissions id with
    | none => (.err 404 "Not found", st)
    | some sub =>
      if sub.professorId ≠ auth.userId then
        (.err 403 "You are not assigned to this submission", st)
      else
        let sub4 := feedbackResult auth body now sub
        (.ok sub4,
         { st with submissions := saveSubmission st.submissions sub4
                   notifications := st.notifications ++ feedbackNotifs auth body now sub })

/-- `GET /api/submissions`.  Students see own and group submissions; any
other role takes the professor path through `filterSubmissionsByProfessor`
with `persist = true`.  Query parameters are JS-truthy-guarded. -/
def listSubmissions (st : Store) (auth : Auth) (studentId groupId : Option String) :
    List Submission × Store :=
  if auth.role = "student" then
    let userGroupIds := (st.groups.filter (fun g => g.members.contains auth.userId)).map (·.id)
    let items := st.submissions.filter (fun s =>
      s.studentId = auth.userId ||
        (truthy s.groupId && userGroupIds.contains (s.groupId.getD "")))
    let items := if truthy studentId then
        items.filter (fun s => some s.studentId = studentId)
      else items
    let items := if truthy groupId then
        items.filter (fun s => s.groupId = groupId)
      else items
    (items, st)
  else
    let r := filterSubmissionsByProfessor st.submissions auth.userId true
    let matched := r.1
    let subs' := r.2.1
    let filtered := if truthy studentId then
        matched.filter (fun s => some s.studentId = studentId)
      else matched
    let filtered := if truthy groupId then
        filtered.filter (fun s => s.groupId = groupId)
      else filtered
    (filtered, { st with submissions := subs' })

/-- The access check shared verbatim by `GET /api/submissions/:id/versions`
and `GET /api/submissions/:id/versions/:version`: students must own or be a
group member; professors must match the stored `professorId` exactly or
case-insensitively, and on a non-exact match the stored id is rewritten to
the caller's and saved; any other role passes unchecked.  Returns `none` for
Forbidden, otherwise the (possibly rewritten) submission and whether
`saveSubmission` ran. -/
def versionReadCheck (groups : List Group) (auth : Auth) (sub : Submission) :
    Option (Submission × Bool) :=
  if auth.role = "student" then
    if studentOwnsOrMember groups auth sub then some (sub, false) else none
  else if auth.role = "professor" then
    if sub.professorId ≠ auth.userId
        && strLower sub.professorId ≠ strLower auth.userId then
      none
    else if sub.professorId ≠ auth.userId then
      some ({ sub with professorId := auth.userId }, true)
    else
      some (sub, false)
  else
    some (sub, false)

/-- `GET /api/submissions/:id/versions`: the version list plus
`currentVersion || 1`. -/
def getVersions (st : Store) (auth : Auth) (id : String) :
    HResult (List SubmissionVersion × Nat) × Store :=
  match getSubmissionById st.submissions id with
  | none => (.err 404 "Submission not found", st)
  | some sub =>
    match versionReadCheck st.groups auth sub with
    | none => (.err 403 "Forbidden", st)
    | some (sub', saved) =>
      let st' := if saved then
          { st with submissions := saveSubmission st.submissions sub' }
        else st
      (.ok (sub'.versions, if sub'.currentVersion = 0 then 1 else sub'.currentVersion), st')

/-- `GET /api/submissions/:id/versions/:version`: a single version entry.
The route parameter passes through `parseInt`, embedded as an `Int`. -/
def getVersion (st : Store) (auth : Auth) (id : String) (versionNum : Int) :
    HResult SubmissionVersion × Store :=
  match getSubmissionById st.submissions id with
  | none => (.err 404 "Submission not found", st)
  | some sub =>
    match versionReadCheck st.groups auth sub with
    | none => (.err 403 "Forbidden", st)
    | some (sub', saved) =>
      let st' := if saved then
          { st with submissions := saveSubmission st.submissions sub' }
        else st
      match sub'.versions.find? (fun v => (v.version : Int) = versionNum) with
      | none => (.err 404 "Version not found", st')
      | some versionData => (.ok versionData, st')

/-! ## Derived notions used by the specification claims -/

/-- The largest `version` number present in a version list (`0` when empty). -/
def maxVer (vs : List SubmissionVersion) : Nat :=
  vs.foldr (fun v m => max v.version m) 0

/-- The versioning invariant maintained manually by the handlers: the current
version pointer is positive and equals the highest version present, and the
root `contentRef` mirrors the current version entry. -/
def lifecycleInv (s : Submission) : Prop :=
  1 ≤ s.currentVersion ∧
  s.currentVersion = maxVer s.versions ∧
  ∀ v ∈ s.versions, v.version = s.currentVersion → v.contentRef = s.contentRef

/-- The root `notes` field mirrors the current version entry. -/
def notesMirror (s : Submission) : Prop :=
  ∀ v ∈ s.versions, v.version = s.currentVersion → v.notes = s.notes

/-- A property holds for whatever submission is stored under id `j`. -/
def TracksAt (P : Submission → Prop) (subs : List Submission) (j : String) : Prop :=
  ∀ s, getSubmissionById subs j = some s → P s

/-- One mutating call against the submission store: a `PATCH` (student or
professor update), a student comment, or a professor feedback application. -/
inductive Op where
  | patchOp (auth : Auth) (id : String) (body : PatchBody) (now : String)
  | commentOp (auth : Auth) (id : String) (text : Option String) (now : String)
  | feedbackOp (auth : Auth) (id : String) (body : FeedbackBody) (now : String)
  deriving Repr, DecidableEq

/-- The post store of one call (error responses leave the store unchanged). -/
def applyOp (st : Store) : Op → Store
  | .patchOp a i b n => (patchSubmission st a i b n).2
  | .commentOp a i t n => (commentSubmission st a i t n).2
  | .feedbackOp a i b n => (feedbackSubmission st a i b n).2

/-- The post store of a sequence of calls. -/
def applyOps (st : Store) (ops : List Op) : Store :=
  ops.foldl applyOp st

/-- An operation that does not take the professor `PATCH` branch with a
`notes` field (such operations are the only ones that can desynchronise the
root `notes` from the current version entry). -/
def opKeepsNotesMirror : Op → Prop
  | .patchOp a _ b _ => a.role = "student" ∨ b.notes = none
  | .commentOp _ _ _ _ => True
  | .feedbackOp _ _ _ _ => True

/-- Spec-side condition: the patch provides a (truthy) `contentRef` that
differs from the stored one. -/
def contentProvidedDiffers (body : PatchBody) (sub : Submission) : Prop :=
  ∃ c, body.contentRef = some c ∧ c ≠ "" ∧ c ≠ sub.contentRef

/-- Spec-side condition: the patch provides `notes` (the empty string counts)
differing from the stored value. -/
def notesProvidedDiffers (body : PatchBody) (sub : Submission) : Prop :=
  ∃ nv, body.notes = some nv ∧ sub.notes ≠ some nv

/-- Spec-side condition: the patch provides a non-empty `changes` text. -/
def changesProvided (body : PatchBody) : Prop :=
  ∃ ch, body.changes = some ch ∧ ch ≠ ""

/-- The professor-reconciliation match rule of `filterSubmissionsByProfessor`:
a non-empty stored id that matches the target exactly, case-insensitively, or
by case-insensitive substring containment in either direction. -/
def profMatchRule (stored target : String) : Bool :=
  stored ≠ "" &&
    (stored = target
      || strLower stored = strLower target
      || strIncludes (strLower stored) (strLower target)
      || strIncludes (strLower target) (strLower stored))

/-- Overwrite a submission's `professorId` with the canonical target id. -/
def reassignTo (pid : String) (s : Submission) : Submission :=
  { s with professorId := pid }

/-- The per-record effect of a persisting reconciliation pass. -/
def reconcileStep (pid : String) (s : Submission) : Submission :=
  if profMatchRule s.professorId pid then reassignTo pid s else s

/-! ## Concrete fixtures (witnesses and counterexamples) -/

/-- A verified professor `p1`. -/
def profUser : User := { userId := "p1", role := "professor", verified := true }

/-- A store holding only the professor `p1`. -/
def baseStore : Store :=
  { users := [profUser], groups := [], submissions := [], notifications := [] }

/-- Student caller `s1`. -/
def studentAuth : Auth := { userId := "s1", role := "student" }

/-- The assigned professor `p1` as caller. -/
def profAuthP1 : Auth := { userId := "p1", role := "professor" }

/-- An unrelated professor `p2` as caller. -/
def profAuthP2 : Auth := { userId := "p2", role := "professor" }

/-- Create body for the scenario submission `HW1`. -/
def hw1Body : CreateBody :=
  { title := some "HW1", typ := some "pdf", contentRef := some "/a.pdf", notes := none,
    milestones := .absent, groupId := none, professorId := some "p1" }

/-- The submission produced by creating `HW1` at time `t0`. -/
def hw1 : Submission :=
  { id := "sub_t0", studentId := "s1", professorId := "p1", groupId := none,
    title := "HW1", typ := "pdf", contentRef := "/a.pdf", notes := none,
    milestones := [], createdAt := "t0", updatedAt := "t0", status := "submitted",
    grade := none, feedback := [],
    versions := [{ version := 1, contentRef := "/a.pdf", notes := none,
                   createdAt := "t0", createdBy := "s1",
                   changes := some "Initial submission" }],
    currentVersion := 1 }

/-- The store after creating `HW1`. -/
def store1 : Store := (createSubmission baseStore studentAuth hw1Body "t0").2

/-- A patch body with every field absent. -/
def emptyPatch : PatchBody :=
  { title := none, typ := none, contentRef := none, notes := none,
    milestones := .absent, professorId := none, changes := none }

/-- A student patch replacing the content artifact. -/
def contentPatch : PatchBody := { emptyPatch with contentRef := some "/b.pdf" }

/-- `HW1` after the `/b.pdf` student patch at time `t1`. -/
def hw1v2 : Submission :=
  { hw1 with
    contentRef := "/b.pdf"
    updatedAt := "t1"
    currentVersion := 2
    versions := hw1.versions ++
      [{ version := 2, contentRef := "/b.pdf", notes := none,
         createdAt := "t1", createdBy := "s1", changes := some "Content updated" }] }

/-- `HW1` after a professor `notes` overwrite at time `t2`. -/
def hw1ProfNoted : Submission := { hw1 with notes := some "prof note", updatedAt := "t2" }

/-- `HW1` with its stored professor id recorded as `Prof_Sam` (casing drift). -/
def hw1ProfSam : Submission := { hw1 with professorId := "Prof_Sam" }

/-- `HW1` with a stored professor id that only substring-matches `prof_sam`. -/
def hw1ProfSamYear : Submission := { hw1 with professorId := "Prof_Sam_2025" }

/-- `HW1` with an empty stored professor id. -/
def hw1NoProf : Submission := { hw1 with professorId := "" }

/-- Professor caller `prof_sam` (canonical casing). -/
def profAuthSam : Auth := { userId := "prof_sam", role := "professor" }

/-- A feedback body supplying text, a status change, and a grade at once. -/
def gradedFeedback : FeedbackBody :=
  { text := some "good", status := some "approved", grade := .num 85 }

/-! ## Store lemmas -/

theorem find_map_replace (subs : List Submission) (sub : Submission) (j : String) :
    (subs.map (fun s => if s.id = sub.id then sub else s)).find? (fun s => s.id = j) =
      (if j = sub.id then (if subs.any (fun s => s.id = sub.id) then some sub else none)
       else subs.find? (fun s => s.id = j)) := by
  induction subs with
  | nil => simp only [List.map_nil, List.find?_nil, List.any_nil]; split <;> rfl
  | cons a as ih =>
    by_cases ha : a.id = sub.id
    · by_cases hj : j = sub.id
      · subst hj
        simp [ha, List.find?_cons]
      · have h1 : ¬ (sub.id = j) := fun hc => hj hc.symm
        have h2 : ¬ (a.id = j) := fun hc => hj (by rw [← hc, ha])
        simp [ha, hj, h1, h2, List.find?_cons, ih]
    · by_cases haj : a.id = j
      · have hj : ¬ j = sub.id := fun hc => ha (by rw [haj, hc])
        simp [ha, haj, hj, List.find?_cons]
      · simp [ha, haj, List.find?_cons, ih]

theorem getSubmissionById_save (subs : List Submission) (sub : Submission) (j : String) :
    getSubmissionById (saveSubmission subs sub) j =
      if j = sub.id then some sub else getSubmissionById subs j := by
  unfold saveSubmission getSubmissionById
  cases hany : subs.any (fun s => s.id = sub.id) with
  | true =>
    rw [if_pos rfl, find_map_replace]
    simp [hany]
  | false =>
    rw [if_neg (by simp), List.find?_append]
    have hnone : subs.find? (fun s => decide (s.id = sub.id)) = none := by
      rw [List.find?_eq_none]
      intro x hx
      simp only [decide_eq_true_eq]
      intro hxj
      have : subs.any (fun s => s.id = sub.id) = true :=
        List.any_eq_true.mpr ⟨x, hx, by simp [hxj]⟩
      rw [hany] at this
      exact Bool.false_ne_true this
    by_cases hj : j = sub.id
    · subst hj
      rw [hnone, if_pos rfl]
      simp [List.find?_cons]
    · have hns : ¬ (sub.id = j) := fun hc => hj hc.symm
      have hsingle : List.find? (fun s => decide (s.id = j)) [sub] = none := by
        simp [List.find?_cons, hns]
      rw [hsingle, if_neg hj]
      cases subs.find? (fun s => decide (s.id = j)) <;> rfl

theorem getSubmissionById_id (subs : List Submission) (i : String) (sub : Submission)
    (h : getSubmissionById subs i = some sub) : sub.id = i := by
  have := List.find?_some h
  simpa using this

/-! ## Field projections of the update steps -/

theorem applyMetaFields_proj (b : PatchBody) (s : Submission) :
    (applyMetaFields b s).id = s.id ∧
    (applyMetaFields b s).versions = s.versions ∧
    (applyMetaFields b s).currentVersion = s.currentVersion ∧
    (applyMetaFields b s).contentRef = s.contentRef ∧
    (applyMetaFields b s).notes = s.notes := by
  unfold applyMetaFields
  cases b.title <;> cases b.typ <;> cases b.milestones <;> simp

theorem applyProfessorFields_proj (b : PatchBody) (s : Submission) :
    (applyProfessorFields b s).id = s.id ∧
    (applyProfessorFields b s).versions = s.versions ∧
    (applyProfessorFields b s).currentVersion = s.currentVersion ∧
    (applyProfessorFields b s).contentRef = s.contentRef := by
  unfold applyProfessorFields
  cases b.notes <;> cases b.milestones <;> simp

theorem applyProfessorFields_notes (b : PatchBody) (s : Submission) :
    (applyProfessorFields b s).notes =
      (match b.notes with | some nv => some nv | none => s.notes) := by
  unfold applyProfessorFields
  cases b.notes <;> cases b.milestones <;> simp

/-! ## Version-list lemmas -/

theorem maxVer_append_single (vs : List SubmissionVersion) (e : SubmissionVersion) :
    maxVer (vs ++ [e]) = max (maxVer vs) e.version := by
  induction vs with
  | nil => simp [maxVer]
  | cons v vs ih =>
    simp only [List.cons_append, maxVer, List.foldr_cons] at *
    rw [ih]
    omega

theorem le_maxVer_of_mem {v : SubmissionVersion} {vs : List SubmissionVersion}
    (h : v ∈ vs) : v.version ≤ maxVer vs := by
  induction vs with
  | nil => cases h
  | cons w ws ih =>
    rcases List.mem_cons.mp h with h | h
    · subst h; simp only [maxVer, List.foldr_cons]; omega
    · have := ih h
      simp only [maxVer, List.foldr_cons] at *
      omega

theorem lifecycleInv_of_fields {s₁ s₂ : Submission}
    (h1 : s₁.versions = s₂.versions) (h2 : s₁.currentVersion = s₂.currentVersion)
    (h3 : s₁.contentRef = s₂.contentRef) (h : lifecycleInv s₂) : lifecycleInv s₁ := by
  unfold lifecycleInv at *
  rw [h1, h2, h3]
  exact h

theorem notesMirror_of_fields {s₁ s₂ : Submission}
    (h1 : s₁.versions = s₂.versions) (h2 : s₁.currentVersion = s₂.currentVersion)
    (h3 : s₁.notes = s₂.notes) (h : notesMirror s₂) : notesMirror s₁ := by
  unfold notesMirror at *
  rw [h1, h2, h3]
  exact h

/-! ## The student versioning step -/

theorem applyStudentVersioning_unchanged (a : Auth) (b : PatchBody) (n : String)
    (s : Submission) (hch : (contentChangedOf b s || notesChangedOf b s) = false) :
    applyStudentVersioning a b n s = s := by
  unfold applyStudentVersioning
  rw [if_neg (by simp [hch])]

theorem applyStudentVersioning_id (a : Auth) (b : PatchBody) (n : String) (s : Submission) :
    (applyStudentVersioning a b n s).id = s.id := by
  cases hch : (contentChangedOf b s || notesChangedOf b s) with
  | false => rw [applyStudentVersioning_unchanged a b n s hch]
  | true =>
    unfold applyStudentVersioning
    rw [if_pos hch]
    cases b.contentRef with
    | none => cases b.notes <;> simp
    | some c =>
      cases b.notes <;> by_cases hc : c = "" <;> simp [hc]

theorem applyStudentVersioning_changed (a : Auth) (b : PatchBody) (n : String)
    (s : Submission) (hch : (contentChangedOf b s || notesChangedOf b s) = true) :
    (applyStudentVersioning a b n s).versions = s.versions ++ [versionEntryOf a b n s] ∧
    (applyStudentVersioning a b n s).currentVersion = (versionEntryOf a b n s).version ∧
    (applyStudentVersioning a b n s).contentRef = (versionEntryOf a b n s).contentRef ∧
    (applyStudentVersioning a b n s).notes = (versionEntryOf a b n s).notes := by
  unfold applyStudentVersioning versionEntryOf
  rw [if_pos hch]
  cases b.contentRef with
  | none => cases b.notes <;> simp
  | some c =>
    cases b.notes <;> by_cases hc : c = "" <;> simp [hc]

theorem versionEntryOf_version (a : Auth) (b : PatchBody) (n : String) (s : Submission) :
    (versionEntryOf a b n s).version =
      (if s.currentVersion = 0 then 1 else s.currentVersion) + 1 := rfl

theorem applyStudentVersioning_inv (a : Auth) (b : PatchBody) (n : String) (s : Submission)
    (h : lifecycleInv s) :
    lifecycleInv (applyStudentVersioning a b n s) ∧
    (notesMirror s → notesMirror (applyStudentVersioning a b n s)) := by
  obtain ⟨h1, h2, h3⟩ := h
  cases hch : (contentChangedOf b s || notesChangedOf b s) with
  | false =>
    rw [applyStudentVersioning_unchanged a b n s hch]
    exact ⟨⟨h1, h2, h3⟩, fun hm => hm⟩
  | true =>
    obtain ⟨hv, hcv, hcr, hno⟩ := applyStudentVersioning_changed a b n s hch
    have hcv0 : ¬ s.currentVersion = 0 := by omega
    have hev : (versionEntryOf a b n s).version = s.currentVersion + 1 := by
      rw [versionEntryOf_version, if_neg hcv0]
    have hmax : maxVer (applyStudentVersioning a b n s).versions = s.currentVersion + 1 := by
      rw [hv, maxVer_append_single, hev, ← h2]
      omega
    have hmem : ∀ v ∈ (applyStudentVersioning a b n s).versions,
        v.version = s.currentVersion + 1 → v = versionEntryOf a b n s := by
      intro v hvmem hveq
      rw [hv] at hvmem
      rcases List.mem_append.mp hvmem with hvin | hvin
      · exfalso
        have := le_maxVer_of_mem hvin
        rw [← h2] at this
        omega
      · simpa using hvin
    constructor
    · refine ⟨by rw [hcv, hev]; omega, by rw [hcv, hev, hmax], ?_⟩
      intro v hvmem hveq
      rw [hcv, hev] at hveq
      rw [hmem v hvmem hveq, ← hcr]
    · intro _
      intro v hvmem hveq
      rw [hcv, hev] at hveq
      rw [hmem v hvmem hveq, ← hno]

/-! ## Handler shape lemmas -/

theorem patchSubmission_cases (st : Store) (a : Auth) (i : String) (b : PatchBody)
    (n : String) :
    (patchSubmission st a i b n).2.submissions = st.submissions ∨
    ∃ sub sub', getSubmissionById st.submissions i = some sub ∧
      (patchSubmission st a i b n).2.submissions = saveSubmission st.submissions sub' ∧
      sub'.id = sub.id ∧
      ((a.role = "student" ∧
          sub'.versions = (applyStudentVersioning a b n sub).versions ∧
          sub'.currentVersion = (applyStudentVersioning a b n sub).currentVersion ∧
          sub'.contentRef = (applyStudentVersioning a b n sub).contentRef ∧
          sub'.notes = (applyStudentVersioning a b n sub).notes) ∨
       (¬ a.role = "student" ∧
          sub'.versions = sub.versions ∧
          sub'.currentVersion = sub.currentVersion ∧
          sub'.contentRef = sub.contentRef ∧
          sub'.notes = (applyProfessorFields b sub).notes)) := by
  unfold patchSubmission
  cases hf : getSubmissionById st.submissions i with
  | none => exact Or.inl rfl
  | some sub =>
    dsimp only
    obtain ⟨hm1, hm2, hm3, hm4, hm5⟩ := applyMetaFields_proj b (applyStudentVersioning a b n sub)
    by_cases hacc : (a.role = "student" && !(studentOwnsOrMember st.groups a sub)) = true
    · rw [if_pos hacc]
      exact Or.inl rfl
    · rw [if_neg hacc]
      by_cases hrole : a.role = "student"
      · rw [if_pos hrole]
        cases hpid : b.professorId with
        | some pid =>
          dsimp only
          cases hu : getUserByUserId st.users pid with
          | none => exact Or.inl rfl
          | some professor =>
            dsimp only
            by_cases hprof : (professor.role ≠ "professor" || !professor.verified) = true
            · rw [if_pos hprof]
              exact Or.inl rfl
            · rw [if_neg hprof]
              refine Or.inr ⟨sub, _, rfl, rfl, ?_, Or.inl ⟨hrole, ?_, ?_, ?_, ?_⟩⟩
              · simpa [hm1] using applyStudentVersioning_id a b n sub
              · simpa using hm2
              · simpa using hm3
              · simpa using hm4
              · simpa using hm5
        | none =>
          dsimp only
          refine Or.inr ⟨sub, _, rfl, rfl, ?_, Or.inl ⟨hrole, ?_, ?_, ?_, ?_⟩⟩
          · simpa [hm1] using applyStudentVersioning_id a b n sub
          · simpa using hm2
          · simpa using hm3
          · simpa using hm4
          · simpa using hm5
      · rw [if_neg hrole]
        obtain ⟨hp1, hp2, hp3, hp4⟩ := applyProfessorFields_proj b sub
        refine Or.inr ⟨sub, _, rfl, rfl, ?_, Or.inr ⟨hrole, ?_, ?_, ?_, ?_⟩⟩
        · simpa using hp1
        · simpa using hp2
        · simpa using hp3
        · simpa using hp4
        · simp

theorem commentSubmission_cases (st : Store) (a : Auth) (i : String) (t : Option String)
    (n : String) :
    (commentSubmission st a i t n).2.submissions = st.submissions ∨
    ∃ sub sub', getSubmissionById st.submissions i = some sub ∧
      (commentSubmission st a i t n).2.submissions = saveSubmission st.submissions sub' ∧
      sub'.id = sub.id ∧ sub'.versions = sub.versions ∧
      sub'.currentVersion = sub.currentVersion ∧
      sub'.contentRef = sub.contentRef ∧ sub'.notes = sub.notes := by
  unfold commentSubmission
  by_cases hrole : a.role ≠ "student"
  · rw [if_pos hrole]; exact Or.inl rfl
  · rw [if_neg hrole]
    by_cases htext : (!(truthy t) || (t.getD "").trim = "") = true
    · rw [if_pos htext]; exact Or.inl rfl
    · rw [if_neg htext]
      cases hf : getSubmissionById st.submissions i with
      | none => exact Or.inl rfl
      | some sub =>
        dsimp only
        by_cases hown : sub.studentId ≠ a.userId
        · rw [if_pos hown]; exact Or.inl rfl
        · rw [if_neg hown]
          exact Or.inr ⟨sub, _, rfl, rfl, rfl, rfl, rfl, rfl, rfl⟩

theorem feedbackSubmission_cases (st : Store) (a : Auth) (i : String) (b : FeedbackBody)
    (n : String) :
    (feedbackSubmission st a i b n).2.submissions = st.submissions ∨
    ∃ sub sub', getSubmissionById st.submissions i = some sub ∧
      (feedbackSubmission st a i b n).2.submissions = saveSubmission st.submissions sub' ∧
      sub'.id = sub.id ∧ sub'.versions = sub.versions ∧
      sub'.currentVersion = sub.currentVersion ∧
      sub'.contentRef = sub.contentRef ∧ sub'.notes = sub.notes := by
  unfold feedbackSubmission
  by_cases hrole : a.role ≠ "professor"
  · rw [if_pos hrole]; exact Or.inl rfl
  · rw [if_neg hrole]
    cases hf : getSubmissionById st.submissions i with
    | none => exact Or.inl rfl
    | some sub =>
      dsimp only
      by_cases hassigned : sub.professorId ≠ a.userId
      · rw [if_pos hassigned]; exact Or.inl rfl
      · rw [if_neg hassigned]
        refine Or.inr ⟨sub, _, rfl, rfl, ?_, ?_, ?_, ?_, ?_⟩ <;>
          · cases hb : b.status with
            | none =>
              cases hg : b.grade <;> by_cases ht : truthy b.text = true <;>
                simp [feedbackResult, ht, hb, hg]
            | some stt =>
              cases hg : b.grade <;> by_cases ht : truthy b.text = true <;>
                by_cases hstt : (¬ stt = "" ∧ (stt = "submitted" ∨ stt = "approved" ∨ stt = "resubmit")) <;>
                simp [feedbackResult, ht, hb, hg, hstt]

/-! ## Invariant tracking across operations -/

theorem tracksAt_of_save {P : Submission → Prop} {subs : List Submission} {j : String}
    {sub sub' : Submission} (hid : sub'.id = sub.id)
    (h : TracksAt P subs j)
    (hP : P sub → P sub')
    (hfind : j = sub.id → getSubmissionById subs j = some sub) :
    TracksAt P (saveSubmission subs sub') j := by
  intro s hs
  rw [getSubmissionById_save] at hs
  by_cases hj : j = sub'.id
  · rw [if_pos hj] at hs
    cases hs
    exact hP (h sub (hfind (hid ▸ hj)))
  · rw [if_neg hj] at hs
    exact h s hs

theorem applyOp_tracks_inv (st : Store) (op : Op) (j : String)
    (h : TracksAt lifecycleInv st.submissions j) :
    TracksAt lifecycleInv (applyOp st op).submissions j := by
  cases op with
  | patchOp a i b n =>
    show TracksAt lifecycleInv (patchSubmission st a i b n).2.submissions j
    rcases patchSubmission_cases st a i b n with hsame | ⟨sub, sub', hf, hsave, hid, hcase⟩
    · rw [hsame]; exact h
    · rw [hsave]
      have hsubid : sub.id = i := getSubmissionById_id _ _ _ hf
      refine tracksAt_of_save hid h ?_ (fun hj => by rw [hj, hsubid]; exact hf)
      intro hinv
      rcases hcase with ⟨_, h1, h2, h3, _⟩ | ⟨_, h1, h2, h3, _⟩
      · exact lifecycleInv_of_fields h1 h2 h3 (applyStudentVersioning_inv a b n sub hinv).1
      · exact lifecycleInv_of_fields h1 h2 h3 hinv
  | commentOp a i t n =>
    show TracksAt lifecycleInv (commentSubmission st a i t n).2.submissions j
    rcases commentSubmission_cases st a i t n with hsame | ⟨sub, sub', hf, hsave, hid, h1, h2, h3, _⟩
    · rw [hsame]; exact h
    · rw [hsave]
      have hsubid : sub.id = i := getSubmissionById_id _ _ _ hf
      exact tracksAt_of_save hid h (lifecycleInv_of_fields h1 h2 h3)
        (fun hj => by rw [hj, hsubid]; exact hf)
  | feedbackOp a i b n =>
    show TracksAt lifecycleInv (feedbackSubmission st a i b n).2.submissions j
    rcases feedbackSubmission_cases st a i b n with hsame | ⟨sub, sub', hf, hsave, hid, h1, h2, h3, _⟩
    · rw [hsame]; exact h
    · rw [hsave]
      have hsubid : sub.id = i := getSubmissionById_id _ _ _ hf
      exact tracksAt_of_save hid h (lifecycleInv_of_fields h1 h2 h3)
        (fun hj => by rw [hj, hsubid]; exact hf)

theorem applyOps_tracks_inv (ops : List Op) (st : Store) (j : String)
    (h : TracksAt lifecycleInv st.submissions j) :
    TracksAt lifecycleInv (applyOps st ops).submissions j := by
  induction ops generalizing st with
  | nil => exact h
  | cons op ops ih =>
    show TracksAt lifecycleInv (applyOps (applyOp st op) ops).submissions j
    exact ih (applyOp st op) (applyOp_tracks_inv st op j h)

theorem applyOp_tracks_pair (st : Store) (op : Op) (j : String)
    (hop : opKeepsNotesMirror op)
    (h : TracksAt (fun s => lifecycleInv s ∧ notesMirror s) st.submissions j) :
    TracksAt (fun s => lifecycleInv s ∧ notesMirror s) (applyOp st op).submissions j := by
  cases op with
  | patchOp a i b n =>
    show TracksAt _ (patchSubmission st a i b n).2.submissions j
    rcases patchSubmission_cases st a i b n with hsame | ⟨sub, sub', hf, hsave, hid, hcase⟩
    · rw [hsame]; exact h
    · rw [hsave]
      have hsubid : sub.id = i := getSubmissionById_id _ _ _ hf
      refine tracksAt_of_save hid h ?_ (fun hj => by rw [hj, hsubid]; exact hf)
      rintro ⟨hinv, hmir⟩
      rcases hcase with ⟨_, h1, h2, h3, h4⟩ | ⟨hrole, h1, h2, h3, h4⟩
      · obtain ⟨hinv', hmir'⟩ := applyStudentVersioning_inv a b n sub hinv
        exact ⟨lifecycleInv_of_fields h1 h2 h3 hinv',
               notesMirror_of_fields h1 h2 h4 (hmir' hmir)⟩
      · have hnotes : b.notes = none := by
          cases hop with
          | inl hst => exact absurd hst hrole
          | inr hn => exact hn
        rw [applyProfessorFields_notes, hnotes] at h4
        exact ⟨lifecycleInv_of_fields h1 h2 h3 hinv,
               notesMirror_of_fields h1 h2 h4 hmir⟩
  | commentOp a i t n =>
    show TracksAt _ (commentSubmission st a i t n).2.submissions j
    rcases commentSubmission_cases st a i t n with hsame | ⟨sub, sub', hf, hsave, hid, h1, h2, h3, h4⟩
    · rw [hsame]; exact h
    · rw [hsave]
      have hsubid : sub.id = i := getSubmissionById_id _ _ _ hf
      refine tracksAt_of_save hid h ?_ (fun hj => by rw [hj, hsubid]; exact hf)
      rintro ⟨hinv, hmir⟩
      exact ⟨lifecycleInv_of_fields h1 h2 h3 hinv, notesMirror_of_fields h1 h2 h4 hmir⟩
  | feedbackOp a i b n =>
    show TracksAt _ (feedbackSubmission st a i b n).2.submissions j
    rcases feedbackSubmission_cases st a i b n with hsame | ⟨sub, sub', hf, hsave, hid, h1, h2, h3, h4⟩
    · rw [hsame]; exact h
    · rw [hsave]
      have hsubid : sub.id = i := getSubmissionById_id _ _ _ hf
      refine tracksAt_of_save hid h ?_ (fun hj => by rw [hj, hsubid]; exact hf)
      rintro ⟨hinv, hmir⟩
      exact ⟨lifecycleInv_of_fields h1 h2 h3 hinv, notesMirror_of_fields h1 h2 h4 hmir⟩

theorem applyOps_tracks_pair (ops : List Op) (st : Store) (j : String)
    (hops : ∀ op ∈ ops, opKeepsNotesMirror op)
    (h : TracksAt (fun s => lifecycleInv s ∧ notesMirror s) st.submissions j) :
    TracksAt (fun s => lifecycleInv s ∧ notesMirror s) (applyOps st ops).submissions j := by
  induction ops generalizing st with
  | nil => exact h
  | cons op ops ih =>
    show TracksAt _ (applyOps (applyOp st op) ops).submissions j
    exact ih (applyOp st op) (fun o ho => hops o (List.mem_cons_of_mem op ho))
      (applyOp_tracks_pair st op j (hops op (List.mem_cons_self op ops)) h)

/-! ## Creation -/

theorem createSubmission_ok (st : Store) (a : Auth) (b : CreateBody) (n : String)
    (ns : Submission) (st' : Store)
    (h : createSubmission st a b n = (.ok ns, st')) :
    st'.submissions = saveSubmission st.submissions ns ∧
    ns.id = "sub_" ++ n ∧
    ns.currentVersion = 1 ∧
    ns.versions = [{ version := 1, contentRef := b.contentRef.getD "", notes := b.notes,
                     createdAt := n, createdBy := a.userId,
                     changes := some "Initial submission" }] ∧
    ns.contentRef = b.contentRef.getD "" ∧
    ns.notes = b.notes ∧
    ns.status = "submitted" ∧
    ns.studentId = a.userId := by
  unfold createSubmission at h
  repeat' (first | split at h | dsimp only at h)
  all_goals rw [Prod.mk.injEq] at h
  all_goals obtain ⟨h1, h2⟩ := h
  all_goals cases h1
  all_goals subst h2
  all_goals exact ⟨rfl, rfl, rfl, rfl, rfl, rfl, rfl, rfl⟩

/-! ## Claim C1 -/

/-- C1: for every submission created via the create operation and then mutated
by any sequence of student updates, professor updates, student comments, and
professor feedback applications, the submission's `currentVersion` field
equals the maximum version number present in its `versions` list. -/
theorem created_currentVersion_eq_maxVer
    (st0 : Store) (a : Auth) (b : CreateBody) (n : String) (ns : Submission) (st1 : Store)
    (hc : createSubmission st0 a b n = (.ok ns, st1))
    (ops : List Op) (s : Submission)
    (hs : getSubmissionById (applyOps st1 ops).submissions ns.id = some s) :
    s.currentVersion = maxVer s.versions := by
  obtain ⟨hsubs, _, hcv, hvs, hcr, _, _, _⟩ := createSubmission_ok st0 a b n ns st1 hc
  have hinv : lifecycleInv ns := by
    refine ⟨by rw [hcv], by rw [hcv, hvs]; simp [maxVer], ?_⟩
    intro v hv _
    rw [hvs] at hv
    simp at hv
    subst hv
    rw [hcr]
  have htr : TracksAt lifecycleInv st1.submissions ns.id := by
    intro s hs'
    rw [hsubs, getSubmissionById_save, if_pos rfl] at hs'
    cases hs'
    exact hinv
  exact ((applyOps_tracks_inv ops st1 ns.id htr) s hs).2.1

/-- Witness for C1: create `HW1`, patch its content as the student, and check
the invariant on the stored result. -/
theorem created_currentVersion_eq_maxVer_witness :
    getSubmissionById
        (applyOps (createSubmission baseStore studentAuth hw1Body "t0").2
          [.patchOp studentAuth "sub_t0" contentPatch "t1"]).submissions "sub_t0" =
      some hw1v2 ∧
    hw1v2.currentVersion = maxVer hw1v2.versions := by
  constructor
  · decide
  · exact created_currentVersion_eq_maxVer baseStore studentAuth hw1Body "t0" hw1
      (createSubmission baseStore studentAuth hw1Body "t0").2 (by decide)
      [.patchOp studentAuth "sub_t0" contentPatch "t1"] hw1v2 (by decide)

/-! ## Claim C2 -/

/-- C2 counterexample: the claim "`contentRef` and `notes` on the submission
root always equal the fields of the version whose `version == currentVersion`,
including after the professor update path" is false: a professor `PATCH`
carrying `notes` overwrites the root notes without touching `versions`, so
the current version entry (notes `none`) disagrees with the root
(`some "prof note"`). -/
theorem professor_notes_patch_breaks_notes_mirror :
    patchSubmission store1 profAuthP1 "sub_t0"
        { emptyPatch with notes := some "prof note" } "t2" =
      (.ok hw1ProfNoted, { store1 with submissions := [hw1ProfNoted] }) ∧
    (hw1ProfNoted.versions.filter
        (fun v => v.version = hw1ProfNoted.currentVersion)).map (fun v => v.notes) =
      [none] ∧
    hw1ProfNoted.notes = some "prof note" ∧
    (none : Option String) ≠ some "prof note" := by
  refine ⟨by decide, by decide, by decide, by decide⟩

/-- C2 amended: after creation and any sequence of updates/comments/feedback,
the root `contentRef` always equals the `contentRef` of every version entry
whose `version` equals `currentVersion`; the same holds for `notes` provided
no operation in the sequence took the professor `PATCH` branch with a `notes`
field (professor notes edits overwrite the root without updating the version
entry, breaking the notes half). -/
theorem created_root_mirrors_current_version
    (st0 : Store) (a : Auth) (b : CreateBody) (n : String) (ns : Submission) (st1 : Store)
    (hc : createSubmission st0 a b n = (.ok ns, st1))
    (ops : List Op) (s : Submission)
    (hs : getSubmissionById (applyOps st1 ops).submissions ns.id = some s) :
    (∀ v ∈ s.versions, v.version = s.currentVersion → v.contentRef = s.contentRef) ∧
    ((∀ op ∈ ops, opKeepsNotesMirror op) →
      ∀ v ∈ s.versions, v.version = s.currentVersion → v.notes = s.notes) := by
  obtain ⟨hsubs, _, hcv, hvs, hcr, hno, _, _⟩ := createSubmission_ok st0 a b n ns st1 hc
  have hinv : lifecycleInv ns := by
    refine ⟨by rw [hcv], by rw [hcv, hvs]; simp [maxVer], ?_⟩
    intro v hv _
    rw [hvs] at hv
    simp at hv
    subst hv
    rw [hcr]
  have hmir : notesMirror ns := by
    intro v hv _
    rw [hvs] at hv
    simp at hv
    subst hv
    rw [hno]
  constructor
  · have htr : TracksAt lifecycleInv st1.submissions ns.id := by
      intro s hs'
      rw [hsubs, getSubmissionById_save, if_pos rfl] at hs'
      cases hs'
      exact hinv
    exact ((applyOps_tracks_inv ops st1 ns.id htr) s hs).2.2
  · intro hops
    have htr : TracksAt (fun s => lifecycleInv s ∧ notesMirror s) st1.submissions ns.id := by
      intro s hs'
      rw [hsubs, getSubmissionById_save, if_pos rfl] at hs'
      cases hs'
      exact ⟨hinv, hmir⟩
    exact ((applyOps_tracks_pair ops st1 ns.id hops htr) s hs).2

/-- Witness for the amended C2: create `HW1`, patch content as the student,
then patch milestones (no notes) as the professor; both mirror halves hold on
the stored result. -/
theorem created_root_mirrors_current_version_witness :
    getSubmissionById
        (applyOps (createSubmission baseStore studentAuth hw1Body "t0").2
          [.patchOp studentAuth "sub_t0" contentPatch "t1",
           .patchOp profAuthP1 "sub_t0"
             { emptyPatch with milestones := .arr [{ label := "m1", date := "d1", done := false }] }
             "t2"]).submissions "sub_t0" ≠ none ∧
    (∀ s, getSubmissionById
        (applyOps (createSubmission baseStore studentAuth hw1Body "t0").2
          [.patchOp studentAuth "sub_t0" contentPatch "t1",
           .patchOp profAuthP1 "sub_t0"
             { emptyPatch with milestones := .arr [{ label := "m1", date := "d1", done := false }] }
             "t2"]).submissions "sub_t0" = some s →
      ∀ v ∈ s.versions, v.version = s.currentVersion →
        v.contentRef = s.contentRef ∧ v.notes = s.notes) := by
  constructor
  · decide
  · intro s hs
    have h := created_root_mirrors_current_version baseStore studentAuth hw1Body "t0" hw1
      (createSubmission baseStore studentAuth hw1Body "t0").2 (by decide)
      [.patchOp studentAuth "sub_t0" contentPatch "t1",
       .patchOp profAuthP1 "sub_t0"
         { emptyPatch with milestones := .arr [{ label := "m1", date := "d1", done := false }] }
         "t2"] s hs
    intro v hv hveq
    exact ⟨h.1 v hv hveq, h.2 (by
        intro op hop
        fin_cases hop
        · exact Or.inl rfl
        · exact Or.inr rfl) v hv hveq⟩

/-! ## Patch-handler result lemmas -/

theorem contentChangedOf_iff (b : PatchBody) (sub : Submission) :
    contentChangedOf b sub = true ↔ contentProvidedDiffers b sub := by
  unfold contentChangedOf contentProvidedDiffers
  cases b.contentRef <;> simp

theorem notesChangedOf_iff (b : PatchBody) (sub : Submission) :
    notesChangedOf b sub = true ↔ notesProvidedDiffers b sub := by
  unfold notesChangedOf notesProvidedDiffers
  cases b.notes <;> simp

theorem patchSubmission_ok_student (st : Store) (a : Auth) (i : String) (b : PatchBody)
    (n : String) (sub s' : Submission) (st' : Store)
    (hrole : a.role = "student")
    (hfind : getSubmissionById st.submissions i = some sub)
    (h : patchSubmission st a i b n = (.ok s', st')) :
    s'.versions = (applyStudentVersioning a b n sub).versions ∧
    s'.currentVersion = (applyStudentVersioning a b n sub).currentVersion ∧
    s'.contentRef = (applyStudentVersioning a b n sub).contentRef ∧
    s'.notes = (applyStudentVersioning a b n sub).notes ∧
    st' = { st with submissions := saveSubmission st.submissions s' } := by
  obtain ⟨hm1, hm2, hm3, hm4, hm5⟩ := applyMetaFields_proj b (applyStudentVersioning a b n sub)
  unfold patchSubmission at h
  rw [hfind] at h
  dsimp only at h
  by_cases hacc : (a.role = "student" && !(studentOwnsOrMember st.groups a sub)) = true
  · rw [if_pos hacc, Prod.mk.injEq] at h
    cases h.1
  · rw [if_neg hacc, if_pos hrole] at h
    cases hpid : b.professorId with
    | none =>
      rw [hpid] at h
      dsimp only at h
      rw [Prod.mk.injEq] at h
      obtain ⟨h1, h2⟩ := h
      cases h1
      subst h2
      exact ⟨hm2, hm3, hm4, hm5, rfl⟩
    | some pid =>
      rw [hpid] at h
      dsimp only at h
      cases hu : getUserByUserId st.users pid with
      | none =>
        rw [hu] at h
        rw [Prod.mk.injEq] at h
        cases h.1
      | some professor =>
        rw [hu] at h
        dsimp only at h
        by_cases hprof : (professor.role ≠ "professor" || !professor.verified) = true
        · rw [if_pos hprof, Prod.mk.injEq] at h
          cases h.1
        · rw [if_neg hprof, Prod.mk.injEq] at h
          obtain ⟨h1, h2⟩ := h
          cases h1
          subst h2
          exact ⟨hm2, hm3, hm4, hm5, rfl⟩

theorem patchSubmission_prof (st : Store) (a : Auth) (i : String) (b : PatchBody)
    (n : String) (sub : Submission)
    (hrole : ¬ a.role = "student")
    (hfind : getSubmissionById st.submissions i = some sub) :
    patchSubmission st a i b n =
      (.ok { applyProfessorFields b sub with updatedAt := n },
       { st with submissions :=
          saveSubmission st.submissions { applyProfessorFields b sub with updatedAt := n } }) := by
  unfold patchSubmission
  rw [hfind]
  dsimp only
  rw [if_neg (by simp [hrole]), if_neg hrole]

/-! ## Claim C3 -/

/-- C3 counterexample: the `contentRef` value `""` is "provided in the patch
and differs from the stored contentRef", yet no version entry is appended —
the handler's JS-truthiness guard (`contentRef && ...`) treats an empty
string as absent. -/
theorem empty_contentRef_patch_appends_no_version :
    (patchSubmission store1 studentAuth "sub_t0"
        { emptyPatch with contentRef := some "" } "t1").1 =
      .ok { hw1 with updatedAt := "t1" } ∧
    ({ hw1 with updatedAt := "t1" } : Submission).versions = hw1.versions ∧
    ("" : String) ≠ hw1.contentRef := by
  refine ⟨by decide, by decide, by decide⟩

/-- C3 amended: for a student update, a version entry is appended exactly when
(`contentRef` is provided **non-empty** and differs) or (`notes` is provided,
including as the empty string, and differs); the entry carries the provided
`changes` text when non-empty, else "Content updated" when content changed
(priority) or "Notes updated"; the root `contentRef`/`notes` are overwritten
from the patch (`contentRef` only when provided non-empty); a patch touching
only `title`, `type`, or `milestones` never appends a version entry. -/
theorem student_patch_versioning_rule
    (st : Store) (a : Auth) (i : String) (b : PatchBody) (n : String)
    (sub s' : Submission) (st' : Store)
    (hrole : a.role = "student")
    (hfind : getSubmissionById st.submissions i = some sub)
    (h : patchSubmission st a i b n = (.ok s', st')) :
    (¬ contentProvidedDiffers b sub ∧ ¬ notesProvidedDiffers b sub →
       s'.versions = sub.versions ∧ s'.currentVersion = sub.currentVersion ∧
       s'.contentRef = sub.contentRef ∧ s'.notes = sub.notes) ∧
    (contentProvidedDiffers b sub ∨ notesProvidedDiffers b sub →
       s'.currentVersion = (if sub.currentVersion = 0 then 1 else sub.currentVersion) + 1 ∧
       s'.contentRef = (match b.contentRef with
         | some c => if c = "" then sub.contentRef else c
         | none => sub.contentRef) ∧
       s'.notes = (match b.notes with | some nv => some nv | none => sub.notes) ∧
       ∃ e, s'.versions = sub.versions ++ [e] ∧
         e.version = s'.currentVersion ∧
         e.contentRef = s'.contentRef ∧ e.notes = s'.notes ∧
         e.createdAt = n ∧ e.createdBy = a.userId ∧
         (∀ ch, b.changes = some ch → ch ≠ "" → e.changes = some ch) ∧
         (¬ changesProvided b →
           (contentProvidedDiffers b sub → e.changes = some "Content updated") ∧
           (¬ contentProvidedDiffers b sub → e.changes = some "Notes updated"))) ∧
    (b.contentRef = none ∧ b.notes = none → s'.versions = sub.versions) := by
  obtain ⟨hv, hcv, hcr, hno, _⟩ := patchSubmission_ok_student st a i b n sub s' st' hrole hfind h
  cases hch : (contentChangedOf b sub || notesChangedOf b sub) with
  | false =>
    rw [applyStudentVersioning_unchanged a b n sub hch] at hv hcv hcr hno
    have hcc : ¬ contentProvidedDiffers b sub := by
      rw [← contentChangedOf_iff]
      simp only [Bool.or_eq_false_iff] at hch
      simp [hch.1]
    have hnc : ¬ notesProvidedDiffers b sub := by
      rw [← notesChangedOf_iff]
      simp only [Bool.or_eq_false_iff] at hch
      simp [hch.2]
    refine ⟨fun _ => ⟨hv, hcv, hcr, hno⟩, fun hcontra => ?_, fun _ => hv⟩
    rcases hcontra with hc | hc
    · exact absurd hc hcc
    · exact absurd hc hnc
  | true =>
    obtain ⟨hv', hcv', hcr', hno'⟩ := applyStudentVersioning_changed a b n sub hch
    rw [hv'] at hv
    rw [hcv', versionEntryOf_version] at hcv
    rw [hcr'] at hcr
    rw [hno'] at hno
    have hor : contentProvidedDiffers b sub ∨ notesProvidedDiffers b sub := by
      rcases Bool.or_eq_true_iff.mp hch with hc | hc
      · exact Or.inl ((contentChangedOf_iff b sub).mp hc)
      · exact Or.inr ((notesChangedOf_iff b sub).mp hc)
    refine ⟨fun hcontra => ?_, fun _ => ?_, fun habs => ?_⟩
    · rcases hor with hc | hc
      · exact absurd hc hcontra.1
      · exact absurd hc hcontra.2
    · refine ⟨hcv, by rw [hcr]; rfl, by rw [hno]; rfl, versionEntryOf a b n sub, hv, ?_, ?_, ?_, rfl, rfl, ?_, ?_⟩
      · rw [hcv, versionEntryOf_version]
      · rw [hcr]
      · rw [hno]
      · intro ch hch' hne
        unfold versionEntryOf
        rw [hch']
        simp [hne]
      · intro hnp
        constructor
        · intro hcc
          unfold versionEntryOf
          have : contentChangedOf b sub = true := (contentChangedOf_iff b sub).mpr hcc
          cases hcp : b.changes with
          | none => simp [this]
          | some ch =>
            have : ch = "" := by
              by_contra hne
              exact hnp ⟨ch, hcp, hne⟩
            subst this
            simp [hcp, (contentChangedOf_iff b sub).mpr hcc]
        · intro hcc
          unfold versionEntryOf
          have hccf : contentChangedOf b sub = false := by
            cases hcf : contentChangedOf b sub with
            | true => exact absurd ((contentChangedOf_iff b sub).mp hcf) hcc
            | false => rfl
          cases hcp : b.changes with
          | none => simp [hccf]
          | some ch =>
            have : ch = "" := by
              by_contra hne
              exact hnp ⟨ch, hcp, hne⟩
            subst this
            simp [hcp, hccf]
    · have : contentChangedOf b sub = false := by
        unfold contentChangedOf
        rw [habs.1]
      have hn : notesChangedOf b sub = false := by
        unfold notesChangedOf
        rw [habs.2]
      rw [this, hn] at hch
      cases hch

/-- Witness for the amended C3: the `/b.pdf` student patch on `HW1` appends
exactly one entry with the default "Content updated" text. -/
theorem student_patch_versioning_rule_witness :
    contentProvidedDiffers contentPatch hw1 ∧
    hw1v2.currentVersion = (if hw1.currentVersion = 0 then 1 else hw1.currentVersion) + 1 ∧
    ∃ e, hw1v2.versions = hw1.versions ++ [e] := by
  have hpatch : patchSubmission store1 studentAuth "sub_t0" contentPatch "t1" =
      (.ok hw1v2, { store1 with submissions := [hw1v2] }) := by decide
  have h := student_patch_versioning_rule store1 studentAuth "sub_t0" contentPatch "t1"
    hw1 hw1v2 { store1 with submissions := [hw1v2] } rfl (by decide) hpatch
  have hor : contentProvidedDiffers contentPatch hw1 := ⟨"/b.pdf", rfl, by decide, by decide⟩
  obtain ⟨hcv, _, _, e, he, _⟩ := h.2.1 (Or.inl hor)
  exact ⟨hor, hcv, e, he⟩

/-! ## Claim C4 -/

/-- C4: the professor branch of `PATCH /api/submissions/:id` performs no check
that the caller is the assigned professor — professor `p2` patching a
submission assigned to `p1` receives a 200 `ok` response and the store is
modified, where the specification requires a 403 with no modification. -/
theorem unassigned_professor_patch_succeeds :
    patchSubmission store1 profAuthP2 "sub_t0"
        { emptyPatch with notes := some "hacked" } "t2" =
      (.ok { hw1 with notes := some "hacked", updatedAt := "t2" },
       { store1 with submissions := [{ hw1 with notes := some "hacked", updatedAt := "t2" }] }) ∧
    hw1.professorId ≠ profAuthP2.userId := by
  refine ⟨by decide, by decide⟩

/-! ## Claim C5 -/

/-- C5: a professor `PATCH` (notes and/or milestones) leaves `versions` and
`currentVersion` unchanged, and overwrites the root `notes` from the patch
without a version record being appended. -/
theorem professor_patch_preserves_versions
    (st : Store) (a : Auth) (i : String) (b : PatchBody) (n : String)
    (sub s' : Submission) (st' : Store)
    (hrole : a.role = "professor")
    (hfind : getSubmissionById st.submissions i = some sub)
    (h : patchSubmission st a i b n = (.ok s', st')) :
    s'.versions = sub.versions ∧ s'.currentVersion = sub.currentVersion ∧
    (∀ nv, b.notes = some nv → s'.notes = some nv) ∧
    getSubmissionById st'.submissions i = some s' := by
  have hrole' : ¬ a.role = "student" := by rw [hrole]; decide
  rw [patchSubmission_prof st a i b n sub hrole' hfind, Prod.mk.injEq] at h
  obtain ⟨h1, h2⟩ := h
  cases h1
  subst h2
  obtain ⟨hp1, hp2, hp3, _⟩ := applyProfessorFields_proj b sub
  refine ⟨hp2, hp3, ?_, ?_⟩
  · intro nv hnv
    show (applyProfessorFields b sub).notes = some nv
    rw [applyProfessorFields_notes, hnv]
  · show getSubmissionById (saveSubmission st.submissions _) i = some _
    rw [getSubmissionById_save, if_pos]
    show i = ({ applyProfessorFields b sub with updatedAt := n } : Submission).id
    rw [show ({ applyProfessorFields b sub with updatedAt := n } : Submission).id =
      (applyProfessorFields b sub).id from rfl, hp1, getSubmissionById_id st.submissions i sub hfind]

/-- Witness for C5: the assigned professor `p1` patches notes on `HW1`. -/
theorem professor_patch_preserves_versions_witness :
    patchSubmission store1 profAuthP1 "sub_t0"
        { emptyPatch with notes := some "prof note" } "t2" =
      (.ok hw1ProfNoted, { store1 with submissions := [hw1ProfNoted] }) ∧
    hw1ProfNoted.versions = hw1.versions ∧
    hw1ProfNoted.currentVersion = hw1.currentVersion ∧
    hw1ProfNoted.notes = some "prof note" := by
  have hpatch : patchSubmission store1 profAuthP1 "sub_t0"
      { emptyPatch with notes := some "prof note" } "t2" =
      (.ok hw1ProfNoted, { store1 with submissions := [hw1ProfNoted] }) := by decide
  have h := professor_patch_preserves_versions store1 profAuthP1 "sub_t0"
    { emptyPatch with notes := some "prof note" } "t2" hw1 hw1ProfNoted
    { store1 with submissions := [hw1ProfNoted] } rfl (by decide) hpatch
  exact ⟨hpatch, h.1, h.2.1, h.2.2.1 "prof note" rfl⟩

/-! ## Claim C9 -/

/-- C9: every failing student update (not-found, forbidden, or
invalid-professor) leaves the persisted submission store — in fact the whole
store — unchanged: validation happens before any store mutation. -/
theorem failed_student_patch_preserves_store
    (st : Store) (a : Auth) (i : String) (b : PatchBody) (n : String)
    (c : Nat) (m : String) (st' : Store)
    (hrole : a.role = "student")
    (h : patchSubmission st a i b n = (.err c m, st')) :
    st' = st := by
  unfold patchSubmission at h
  cases hf : getSubmissionById st.submissions i with
  | none =>
    rw [hf] at h
    dsimp only at h
    rw [Prod.mk.injEq] at h
    exact h.2.symm
  | some sub =>
    rw [hf] at h
    dsimp only at h
    by_cases hacc : (a.role = "student" && !(studentOwnsOrMember st.groups a sub)) = true
    · rw [if_pos hacc, Prod.mk.injEq] at h
      exact h.2.symm
    · rw [if_neg hacc, if_pos hrole] at h
      cases hpid : b.professorId with
      | none =>
        rw [hpid] at h
        dsimp only at h
        rw [Prod.mk.injEq] at h
        cases h.1
      | some pid =>
        rw [hpid] at h
        dsimp only at h
        cases hu : getUserByUserId st.users pid with
        | none =>
          rw [hu] at h
          rw [Prod.mk.injEq] at h
          exact h.2.symm
        | some professor =>
          rw [hu] at h
          dsimp only at h
          by_cases hprof : (professor.role ≠ "professor" || !professor.verified) = true
          · rw [if_pos hprof, Prod.mk.injEq] at h
            exact h.2.symm
          · rw [if_neg hprof, Prod.mk.injEq] at h
            cases h.1

/-- Witness for C9: a student patch against an unknown id returns 404 and the
store is unchanged. -/
theorem failed_student_patch_preserves_store_witness :
    patchSubmission baseStore studentAuth "nope" emptyPatch "t1" =
      (.err 404 "Not found", baseStore) ∧ baseStore = baseStore := by
  refine ⟨by decide, ?_⟩
  exact failed_student_patch_preserves_store baseStore studentAuth "nope" emptyPatch "t1"
    404 "Not found" baseStore rfl (by decide)

/-! ## Claim C8 -/

theorem feedbackSubmission_ok (st : Store) (a : Auth) (i : String) (b : FeedbackBody)
    (n : String) (sub : Submission)
    (hrole : a.role = "professor")
    (hfind : getSubmissionById st.submissions i = some sub)
    (hassigned : sub.professorId = a.userId) :
    feedbackSubmission st a i b n =
      (.ok (feedbackResult a b n sub),
       { st with submissions := saveSubmission st.submissions (feedbackResult a b n sub)
                 notifications := st.notifications ++ feedbackNotifs a b n sub }) := by
  unfold feedbackSubmission
  rw [if_neg (by simp [hrole]), hfind]
  dsimp only
  rw [if_neg (by simp [hassigned])]

theorem status_whitelist_iff (stt : String) :
    (stt ≠ "" && ["submitted", "approved", "resubmit"].contains stt) = true ↔
      (stt = "submitted" ∨ stt = "approved" ∨ stt = "resubmit") := by
  constructor
  · intro h
    simp at h
    tauto
  · intro h
    rcases h with h | h | h <;> subst h <;> decide

theorem feedbackResult_status (a : Auth) (b : FeedbackBody) (n : String) (sub : Submission) :
    (feedbackResult a b n sub).status =
      (match b.status with
       | some stt =>
         if stt = "submitted" ∨ stt = "approved" ∨ stt = "resubmit" then stt else sub.status
       | none => sub.status) := by
  unfold feedbackResult
  cases hs : b.status with
  | none =>
    cases hg : b.grade <;> by_cases ht : truthy b.text = true <;> simp [ht, hg]
  | some stt =>
    by_cases hv : (stt = "submitted" ∨ stt = "approved" ∨ stt = "resubmit")
    · have hb : (stt ≠ "" && ["submitted", "approved", "resubmit"].contains stt) = true :=
        (status_whitelist_iff stt).mpr hv
      have hne : ¬ stt = "" := by rcases hv with h | h | h <;> subst h <;> decide
      cases hg : b.grade <;> by_cases ht : truthy b.text = true <;>
        simp [ht, hg, hb, hv, hne]
    · have hb : (stt ≠ "" && ["submitted", "approved", "resubmit"].contains stt) = false := by
        cases hc : (stt ≠ "" && ["submitted", "approved", "resubmit"].contains stt) with
        | true => exact absurd ((status_whitelist_iff stt).mp hc) hv
        | false => rfl
      cases hg : b.grade <;> by_cases ht : truthy b.text = true <;>
        simp [ht, hg, hb, hv] <;> (try (split <;> rfl))

theorem feedbackResult_grade (a : Auth) (b : FeedbackBody) (n : String) (sub : Submission) :
    (feedbackResult a b n sub).grade =
      (match b.grade with | .num g => some g | _ => sub.grade) := by
  unfold feedbackResult
  cases hs : b.status with
  | none =>
    cases hg : b.grade <;> by_cases ht : truthy b.text = true <;> simp [ht, hg]
  | some stt =>
    cases hg : b.grade <;> by_cases ht : truthy b.text = true <;>
      by_cases hb : (stt ≠ "" && ["submitted", "approved", "resubmit"].contains stt) = true <;>
      simp [ht, hg, hb] <;> (try (split <;> rfl))

theorem feedbackNotifs_pairs (a : Auth) (b : FeedbackBody) (n : String) (sub : Submission) :
    (feedbackNotifs a b n sub).map (fun nf => (nf.userId, nf.typ)) =
      ((match b.text with
        | some t => if t = "" then [] else [(sub.studentId, "feedback")]
        | none => []) ++
       (match b.status with
        | some stt => if stt = "" ∨ stt = sub.status then [] else [(sub.studentId, "status_change")]
        | none => []) ++
       (match b.grade with
        | .num g => if sub.grade = some g then [] else [(sub.studentId, "grade")]
        | _ => [])) := by
  unfold feedbackNotifs
  cases htx : b.text <;> cases hs : b.status <;> cases hg : b.grade <;>
    simp [truthy, createNotification] <;>
    (repeat' (first | rfl | tauto | (split <;> simp_all) | simp_all))

/-- C8 amended: for a feedback call by the exactly assigned professor, a
supplied status is written only when in {submitted, approved, resubmit} and
silently ignored otherwise; a supplied grade is written only when numeric;
and the queued notifications to the student are exactly: `feedback` when the
text is non-empty, `status_change` when a **non-empty** status is supplied
that differs from the prior status (an empty-string status is falsy and never
notifies), and `grade` when a numeric grade differing from the prior grade is
supplied — all three possibly from one call, in that order. -/
theorem professor_feedback_rule
    (st : Store) (a : Auth) (i : String) (b : FeedbackBody) (n : String)
    (sub s' : Submission) (st' : Store)
    (hrole : a.role = "professor")
    (hfind : getSubmissionById st.submissions i = some sub)
    (hassigned : sub.professorId = a.userId)
    (h : feedbackSubmission st a i b n = (.ok s', st')) :
    s'.status = (match b.status with
      | some stt =>
        if stt = "submitted" ∨ stt = "approved" ∨ stt = "resubmit" then stt else sub.status
      | none => sub.status) ∧
    s'.grade = (match b.grade with | .num g => some g | _ => sub.grade) ∧
    (st'.notifications.drop st.notifications.length).map (fun nf => (nf.userId, nf.typ)) =
      ((match b.text with
        | some t => if t = "" then [] else [(sub.studentId, "feedback")]
        | none => []) ++
       (match b.status with
        | some stt => if stt = "" ∨ stt = sub.status then [] else [(sub.studentId, "status_change")]
        | none => []) ++
       (match b.grade with
        | .num g => if sub.grade = some g then [] else [(sub.studentId, "grade")]
        | _ => [])) := by
  rw [feedbackSubmission_ok st a i b n sub hrole hfind hassigned, Prod.mk.injEq] at h
  obtain ⟨h1, h2⟩ := h
  cases h1
  subst h2
  refine ⟨feedbackResult_status a b n sub, feedbackResult_grade a b n sub, ?_⟩
  show ((st.notifications ++ feedbackNotifs a b n sub).drop st.notifications.length).map _ = _
  rw [List.drop_left]
  exact feedbackNotifs_pairs a b n sub

/-- Witness for the amended C8: text + valid status change + new grade in one
call queues all three notifications to the student. -/
theorem professor_feedback_rule_witness :
    ((feedbackSubmission store1 profAuthP1 "sub_t0" gradedFeedback "t3").2.notifications.drop
        store1.notifications.length).map (fun nf => (nf.userId, nf.typ)) =
      [("s1", "feedback"), ("s1", "status_change"), ("s1", "grade")] := by
  have h := professor_feedback_rule store1 profAuthP1 "sub_t0" gradedFeedback "t3" hw1
    (feedbackResult profAuthP1 gradedFeedback "t3" hw1) _ rfl (by decide) (by decide)
    (feedbackSubmission_ok store1 profAuthP1 "sub_t0" gradedFeedback "t3" hw1 rfl
      (by decide) (by decide))
  exact h.2.2.trans (by decide)

/-- C8 counterexample: a supplied empty-string status differs from the prior
status `"submitted"`, yet no `status_change` notification is queued (the
handler's `status && ...` guard treats `""` as falsy), refuting "a
status_change notification is queued exactly when the supplied status differs
from the prior status". -/
theorem empty_status_feedback_sends_no_notification :
    (feedbackSubmission store1 profAuthP1 "sub_t0"
        { text := none, status := some "", grade := .absent } "t3").1 =
      .ok { hw1 with updatedAt := "t3" } ∧
    (feedbackSubmission store1 profAuthP1 "sub_t0"
        { text := none, status := some "", grade := .absent } "t3").2.notifications =
      store1.notifications ∧
    "" ≠ hw1.status := by
  refine ⟨by decide, by decide, by decide⟩

/-! ## Professor reconciliation: characterization -/

theorem reassignTo_eq_self {s : Submission} {pid : String} (h : s.professorId = pid) :
    reassignTo pid s = s := by
  cases s
  cases h
  rfl

theorem filterStep_eq (pid : String) (s : Submission) :
    filterStep pid true s =
      (if profMatchRule s.professorId pid then some (reassignTo pid s) else none,
       reconcileStep pid s,
       profMatchRule s.professorId pid && s.professorId != pid) := by
  by_cases h0 : s.professorId = ""
  · have hrule : profMatchRule "" pid = false := by simp [profMatchRule]
    simp [filterStep, reconcileStep, h0, hrule]
  · by_cases hex : s.professorId = pid
    · have hpne : ¬ pid = "" := hex ▸ h0
      have hrule : profMatchRule pid pid = true := by simp [profMatchRule, hpne]
      have hbne : (s.professorId != pid) = false := by simp [hex]
      simp [filterStep, reconcileStep, h0, hex, hpne, hrule, hbne, reassignTo_eq_self hex]
    · have hrule : profMatchRule s.professorId pid =
          (strLower s.professorId = strLower pid
            || strIncludes (strLower s.professorId) (strLower pid)
            || strIncludes (strLower pid) (strLower s.professorId)) := by
        simp [profMatchRule, h0, hex]
      have hbne : (s.professorId != pid) = true := by simp [hex]
      cases hfz : (strLower s.professorId = strLower pid
          || strIncludes (strLower s.professorId) (strLower pid)
          || strIncludes (strLower pid) (strLower s.professorId)) with
      | true =>
        have hrule2 : profMatchRule s.professorId pid = true := hrule.trans hfz
        have hfz2 : ((strLower s.professorId = strLower pid
            ∨ strIncludes (strLower s.professorId) (strLower pid) = true)
            ∨ strIncludes (strLower pid) (strLower s.professorId) = true) := by
          simpa [Bool.or_eq_true, or_assoc] using hfz
        simp [filterStep, h0, hex, hfz2, hrule2, hbne, reconcileStep, reassignTo, or_assoc]
      | false =>
        have hrule2 : profMatchRule s.professorId pid = false := hrule.trans hfz
        have hfz2 : ¬ ((strLower s.professorId = strLower pid
            ∨ strIncludes (strLower s.professorId) (strLower pid) = true)
            ∨ strIncludes (strLower pid) (strLower s.professorId) = true) := by
          have f := hfz
          simp only [Bool.or_eq_false_iff, decide_eq_false_iff_not] at f
          obtain ⟨⟨f1, f2⟩, f3⟩ := f
          rintro ((hc | hc) | hc)
          · exact f1 hc
          · rw [f2] at hc; cases hc
          · rw [f3] at hc; cases hc
        simp [filterStep, h0, hex, hfz2, hrule2, reconcileStep, or_assoc]

theorem filterSubmissionsByProfessor_spec (subs : List Submission) (pid : String) :
    filterSubmissionsByProfessor subs pid true =
      ((subs.filter (fun s => profMatchRule s.professorId pid)).map (reassignTo pid),
       subs.map (reconcileStep pid),
       (subs.filter (fun s => profMatchRule s.professorId pid && s.professorId != pid)).map
         (fun s => s.id)) := by
  induction subs with
  | nil => rfl
  | cons s rest ih =>
    unfold filterSubmissionsByProfessor
    rw [filterStep_eq, ih]
    by_cases hr : profMatchRule s.professorId pid = true
    · by_cases hb : (s.professorId != pid) = true <;>
        simp [hr, hb, List.filter_cons, reconcileStep, reassignTo]
    · simp [hr, List.filter_cons, reconcileStep]

theorem listSubmissions_prof (st : Store) (a : Auth) (h : ¬ a.role = "student") :
    listSubmissions st a none none =
      ((filterSubmissionsByProfessor st.submissions a.userId true).1,
       { st with submissions := (filterSubmissionsByProfessor st.submissions a.userId true).2.1 }) := by
  unfold listSubmissions
  rw [if_neg h]
  simp [truthy]

/-! ## Claim C6 -/

/-- C6 counterexample: a submission with an empty stored `professorId`
satisfies the claim's containment rule (the empty string is contained in any
target, case-insensitively), yet `filterSubmissionsByProfessor` skips it
(`if (!submission.professorId) continue`), so it is never returned. -/
theorem empty_professorId_never_matches :
    strIncludes (strLower "p1") (strLower "") = true ∧
    (filterSubmissionsByProfessor [hw1NoProf] "p1" true).1 = [] := by
  refine ⟨by decide, by decide⟩

/-- C6 amended: for every target professorId and submission **with a
non-empty stored professorId** (records with an empty/missing professorId are
skipped), the reconciliation match holds exactly when the stored id equals
the target, or equals it case-insensitively, or one contains the other
case-insensitively; a persisting professor listing returns every matching
submission rewritten to the caller's canonical id, rewrites exactly the
non-exactly-matching records in the store, and saves exactly those. -/
theorem professor_reconciliation_rule (st : Store) (pid : String) :
    (filterSubmissionsByProfessor st.submissions pid true).1 =
      (st.submissions.filter (fun s => profMatchRule s.professorId pid)).map (reassignTo pid) ∧
    (filterSubmissionsByProfessor st.submissions pid true).2.1 =
      st.submissions.map (reconcileStep pid) ∧
    (filterSubmissionsByProfessor st.submissions pid true).2.2 =
      (st.submissions.filter
        (fun s => profMatchRule s.professorId pid && s.professorId != pid)).map (fun s => s.id) ∧
    listSubmissions st { userId := pid, role := "professor" } none none =
      ((st.submissions.filter (fun s => profMatchRule s.professorId pid)).map (reassignTo pid),
       { st with submissions := st.submissions.map (reconcileStep pid) }) := by
  have hspec := filterSubmissionsByProfessor_spec st.submissions pid
  refine ⟨by rw [hspec], by rw [hspec], by rw [hspec], ?_⟩
  rw [listSubmissions_prof st { userId := pid, role := "professor" } (by simp), hspec]

/-- Witness-style instance of the C6 spec example (no hypotheses in the
amended theorem, recorded for concreteness): stored `"Prof_Sam"`, caller
`"prof_sam"` — the submission is returned with its professorId rewritten. -/
theorem professor_reconciliation_rule_example :
    (filterSubmissionsByProfessor [hw1ProfSam] "prof_sam" true).1 =
      [{ hw1ProfSam with professorId := "prof_sam" }] ∧
    (filterSubmissionsByProfessor [hw1ProfSam] "prof_sam" true).2.1 =
      [{ hw1ProfSam with professorId := "prof_sam" }] := by
  refine ⟨by decide, by decide⟩

/-! ## Claim C10 -/

theorem mkAuth_userId_ne (u r : Option String) : (mkAuth u r).userId ≠ "" := by
  unfold mkAuth
  cases u with
  | none => simp
  | some s =>
    by_cases hs : s = "" <;> simp [hs]

theorem profMatchRule_self {pid : String} (h : ¬ pid = "") : profMatchRule pid pid = true := by
  simp [profMatchRule, h]

theorem reconcile_fixed (pid : String) (hpid : ¬ pid = "") (subs : List Submission) :
    ((subs.map (reconcileStep pid)).filter
        (fun s => profMatchRule s.professorId pid)).map (reassignTo pid) =
      (subs.filter (fun s => profMatchRule s.professorId pid)).map (reassignTo pid) ∧
    (subs.map (reconcileStep pid)).map (reconcileStep pid) = subs.map (reconcileStep pid) ∧
    ((subs.map (reconcileStep pid)).filter
        (fun s => profMatchRule s.professorId pid && s.professorId != pid)).map
      (fun s => s.id) = [] := by
  induction subs with
  | nil => exact ⟨rfl, rfl, rfl⟩
  | cons s rest ih =>
    obtain ⟨ih1, ih2, ih3⟩ := ih
    by_cases h : profMatchRule s.professorId pid = true
    · have hs' : reconcileStep pid s = reassignTo pid s := by
        unfold reconcileStep
        rw [if_pos h]
      have hrule' : profMatchRule (reassignTo pid s).professorId pid = true :=
        profMatchRule_self hpid
      have hreconcile2 : reconcileStep pid (reassignTo pid s) = reassignTo pid s := by
        unfold reconcileStep
        rw [if_pos hrule']
        rfl
      have hbne : ((reassignTo pid s).professorId != pid) = false := by
        simp [reassignTo]
      have hra : reassignTo pid (reassignTo pid s) = reassignTo pid s := rfl
      simp [hs', h, hrule', hreconcile2, hbne, hra, ih1, ih2, ih3, List.filter_cons]
    · have hs' : reconcileStep pid s = s := by
        unfold reconcileStep
        rw [if_neg h]
      simp [hs', h, ih1, ih2, ih3, List.filter_cons]

/-- C10: the persisting professor listing is idempotent — a second listing by
the same professor over the post store returns the same submissions (each now
matched exactly), performs no further reconciliation writes, and leaves the
store fixed. -/
theorem professor_listing_idempotent (st : Store) (userIdHeader : Option String) :
    (listSubmissions (listSubmissions st (mkAuth userIdHeader (some "professor")) none none).2
        (mkAuth userIdHeader (some "professor")) none none).1 =
      (listSubmissions st (mkAuth userIdHeader (some "professor")) none none).1 ∧
    (listSubmissions (listSubmissions st (mkAuth userIdHeader (some "professor")) none none).2
        (mkAuth userIdHeader (some "professor")) none none).2 =
      (listSubmissions st (mkAuth userIdHeader (some "professor")) none none).2 ∧
    (filterSubmissionsByProfessor
        (listSubmissions st (mkAuth userIdHeader (some "professor")) none none).2.submissions
        (mkAuth userIdHeader (some "professor")).userId true).2.2 = [] ∧
    (∀ s ∈ (listSubmissions (listSubmissions st (mkAuth userIdHeader (some "professor")) none none).2
        (mkAuth userIdHeader (some "professor")) none none).1,
      s.professorId = (mkAuth userIdHeader (some "professor")).userId) := by
  set a := mkAuth userIdHeader (some "professor") with ha
  have hpid : ¬ a.userId = "" := mkAuth_userId_ne _ _
  have hrole : ¬ a.role = "student" := by
    rw [ha]
    unfold mkAuth
    simp
  have h1 := listSubmissions_prof st a hrole
  rw [h1]
  have hspec := filterSubmissionsByProfessor_spec st.submissions a.userId
  rw [hspec]
  have h2 := listSubmissions_prof { st with submissions := st.submissions.map (reconcileStep a.userId) } a hrole
  rw [h2]
  have hspec2 := filterSubmissionsByProfessor_spec
    (st.submissions.map (reconcileStep a.userId)) a.userId
  rw [hspec2]
  obtain ⟨hf1, hf2, hf3⟩ := reconcile_fixed a.userId hpid st.submissions
  refine ⟨hf1, by rw [hf2], hf3, ?_⟩
  intro s hs
  obtain ⟨x, -, rfl⟩ := List.mem_map.mp hs
  rfl

/-! ## Claim C7 -/

/-- C7 counterexample: stored professorId `"Prof_Sam_2025"` matches caller
`"prof_sam"` under the listing reconciliation rule (case-insensitive
substring containment), but the version-read endpoints deny access (403) and
perform no rewrite — their check accepts only exact or case-insensitive
equality, not the full reconciliation rule. -/
theorem substring_match_denied_on_version_read :
    (filterSubmissionsByProfessor [hw1ProfSamYear] "prof_sam" true).1 =
      [{ hw1ProfSamYear with professorId := "prof_sam" }] ∧
    getVersions { baseStore with submissions := [hw1ProfSamYear] } profAuthSam "sub_t0" =
      (.err 403 "Forbidden", { baseStore with submissions := [hw1ProfSamYear] }) ∧
    getVersion { baseStore with submissions := [hw1ProfSamYear] } profAuthSam "sub_t0" 1 =
      (.err 403 "Forbidden", { baseStore with submissions := [hw1ProfSamYear] }) := by
  refine ⟨by decide, by decide, by decide⟩

/-- C7 amended: for professor callers, the version-list and single-version
reads grant access iff the caller's id equals the stored `professorId`
exactly or case-insensitively (substring containment is **not** accepted,
unlike list-for-professor); on a non-exact, case-insensitive match the
stored professorId is rewritten to the caller's id and saved. -/
theorem version_read_access_rule
    (st : Store) (a : Auth) (i : String) (vn : Int) (sub : Submission)
    (hrole : a.role = "professor")
    (hfind : getSubmissionById st.submissions i = some sub) :
    ((¬ sub.professorId = a.userId ∧ ¬ strLower sub.professorId = strLower a.userId) →
       getVersions st a i = (.err 403 "Forbidden", st) ∧
       getVersion st a i vn = (.err 403 "Forbidden", st)) ∧
    (sub.professorId = a.userId →
       getVersions st a i =
         (.ok (sub.versions, if sub.currentVersion = 0 then 1 else sub.currentVersion), st) ∧
       getVersion st a i vn =
         (match sub.versions.find? (fun v => (v.version : Int) = vn) with
          | some vd => (.ok vd, st)
          | none => (.err 404 "Version not found", st))) ∧
    ((¬ sub.professorId = a.userId ∧ strLower sub.professorId = strLower a.userId) →
       getVersions st a i =
         (.ok (sub.versions, if sub.currentVersion = 0 then 1 else sub.currentVersion),
          { st with submissions :=
              saveSubmission st.submissions { sub with professorId := a.userId } }) ∧
       getVersion st a i vn =
         (match sub.versions.find? (fun v => (v.version : Int) = vn) with
          | some vd =>
            (.ok vd,
             { st with submissions :=
                 saveSubmission st.submissions { sub with professorId := a.userId } })
          | none =>
            (.err 404 "Version not found",
             { st with submissions :=
                 saveSubmission st.submissions { sub with professorId := a.userId } }))) := by
  have hrole' : ¬ a.role = "student" := by rw [hrole]; decide
  refine ⟨?_, ?_, ?_⟩
  · rintro ⟨hne, hnl⟩
    have hcheck : versionReadCheck st.groups a sub = none := by
      unfold versionReadCheck
      rw [if_neg hrole', if_pos hrole, if_pos (by simp [hne, hnl])]
    constructor
    · unfold getVersions
      rw [hfind]
      dsimp only
      rw [hcheck]
    · unfold getVersion
      rw [hfind]
      dsimp only
      rw [hcheck]
  · intro hex
    have hcheck : versionReadCheck st.groups a sub = some (sub, false) := by
      unfold versionReadCheck
      rw [if_neg hrole', if_pos hrole, if_neg (by simp [hex]), if_neg (by simp [hex])]
    constructor
    · unfold getVersions
      rw [hfind]
      dsimp only
      rw [hcheck]
      dsimp only
      rw [if_neg Bool.false_ne_true]
    · unfold getVersion
      rw [hfind]
      dsimp only
      rw [hcheck]
      dsimp only
      rw [if_neg Bool.false_ne_true]
      cases sub.versions.find? (fun v => (v.version : Int) = vn) <;> rfl
  · rintro ⟨hne, hl⟩
    have hcheck : versionReadCheck st.groups a sub =
        some ({ sub with professorId := a.userId }, true) := by
      unfold versionReadCheck
      rw [if_neg hrole', if_pos hrole, if_neg (by simp [hne, hl]), if_pos (by simp [hne])]
    constructor
    · unfold getVersions
      rw [hfind]
      dsimp only
      rw [hcheck]
      dsimp only
      rw [if_pos rfl]
    · unfold getVersion
      rw [hfind]
      dsimp only
      rw [hcheck]
      dsimp only
      rw [if_pos rfl]
      cases sub.versions.find? (fun v => (v.version : Int) = vn) <;> rfl

/-- Witness for the amended C7: caller `prof_sam` reading versions of a
submission stored under `"Prof_Sam"` is granted access and the stored id is
rewritten and saved. -/
theorem version_read_access_rule_witness :
    getVersions { baseStore with submissions := [hw1ProfSam] } profAuthSam "sub_t0" =
      (.ok (hw1.versions, 1),
       { baseStore with submissions := [{ hw1ProfSam with professorId := "prof_sam" }] }) := by
  have h := version_read_access_rule { baseStore with submissions := [hw1ProfSam] } profAuthSam
    "sub_t0" 1 hw1ProfSam rfl (by decide)
  exact ((h.2.2 ⟨by decide, by decide⟩).1).trans (by decide)

end ESITracker
